import Mathlib

/-!
Verification development for the `ora-core` note manager.

The Rust sources are shallowly embedded:
* filesystem paths become `FsPath` (an absolute/relative flag plus components,
  mirroring `std::path::PathBuf` joining semantics for the operations used);
* the filesystem becomes an association list `FS` from paths to file contents;
* the functions of `src/domain.rs` (`sanitize_title`, `slugify_title`,
  `is_unique`, `LocalNote::create/open/reload/save`, `write_atomic`) become
  pure Lean functions over that state;
* the debouncer loop of `src/watcher/debounce.rs` becomes a fold over a
  timestamped event list;
* the index of `src/watcher/index.rs` becomes an association list keyed by
  path, and the handlers of `src/watcher/handler.rs` become functions that
  also record the index-port calls they make.

Character classes (`char::is_alphanumeric`, `char::is_whitespace`,
`to_lowercase`) are modelled by their ASCII behaviour via `Char.isAlphanum`,
`Char.isWhitespace` and `Char.toLower`.
-/

set_option autoImplicit false

namespace Ora

/-! ## Paths

A path is a flag saying whether it is absolute plus a list of components.
`join` follows `Path::join`: joining with an absolute path replaces the
receiver.  Components are assumed to be ordinary file names (no `..`). -/

structure FsPath where
  absolute : Bool
  comps : List String
deriving DecidableEq, Repr

/-- Model of `Path::join` with a single file-name component. -/
def FsPath.joinName (p : FsPath) (name : String) : FsPath :=
  ⟨p.absolute, p.comps ++ [name]⟩

/-- Model of `Path::join` with another path: an absolute argument replaces `p`. -/
def FsPath.join (p q : FsPath) : FsPath :=
  if q.absolute then q else ⟨p.absolute, p.comps ++ q.comps⟩

/-- Model of `Path::file_name`: the last component, if any. -/
def FsPath.fileName? (p : FsPath) : Option String :=
  p.comps.getLast?

/-- Model of `Path::parent`: drop the last component; `none` at a root/empty path. -/
def FsPath.parent? (p : FsPath) : Option FsPath :=
  if p.comps.isEmpty then none else some ⟨p.absolute, p.comps.dropLast⟩

/-! ## Filesystem state

The filesystem is an association list from paths to file contents. -/

abbrev FS := List (FsPath × String)

/-- Read a file (`fs::read_to_string`): `none` when the path is absent. -/
def fsRead : FS → FsPath → Option String
  | [], _ => none
  | (q, s) :: rest, p => if q = p then some s else fsRead rest p

/-- Model of `Path::exists`. -/
def fsExistsFile (fs : FS) (p : FsPath) : Bool :=
  (fsRead fs p).isSome

/-- Write a file (`fs::write`), overwriting an existing entry. -/
def fsWrite : FS → FsPath → String → FS
  | [], p, s => [(p, s)]
  | (q, t) :: rest, p, s =>
    if q = p then (q, s) :: rest else (q, t) :: fsWrite rest p s

/-- Remove a file (`fs::remove_file` / the source side of a rename). -/
def fsErase : FS → FsPath → FS
  | [], _ => []
  | (q, t) :: rest, p => if q = p then rest else (q, t) :: fsErase rest p

/-! ## Character and string helpers (ASCII models of the Rust primitives) -/

/-- Model of `char::is_alphanumeric` (ASCII behaviour). -/
def rustIsAlphanumeric (c : Char) : Bool := c.isAlphanum

/-- Model of `char::is_whitespace` (ASCII behaviour). -/
def rustIsWhitespace (c : Char) : Bool := c.isWhitespace

/-- Model of `char::to_lowercase` (ASCII behaviour, one char to one char). -/
def rustToLower (c : Char) : Char := c.toLower

/-- Model of `str::trim`: strip leading and trailing whitespace. -/
def rustTrim (s : String) : String :=
  ⟨((s.data.dropWhile rustIsWhitespace).reverse.dropWhile rustIsWhitespace).reverse⟩

/-- Model of `str::starts_with('#')`. -/
def startsWithHash (s : String) : Bool :=
  match s.data with
  | [] => false
  | c :: _ => c == '#'

/-- Does a file name start with `.` (hidden file), as in `starts_with('.')`. -/
def isHiddenName (s : String) : Bool :=
  match s.data with
  | [] => false
  | c :: _ => c == '.'

/-- First element of `str::lines`: the text before the first `'\n'`, with a
trailing `'\r'` stripped; `none` on the empty string (no lines at all). -/
def firstLine? (s : String) : Option (List Char) :=
  match s.data with
  | [] => none
  | cs =>
    let l := cs.takeWhile (fun c => c ≠ '\n')
    some (if l.getLast? = some '\r' then l.dropLast else l)

/-- Model of `Path::extension` applied to a file name: the part after the last `'.'`,
`none` when there is no dot or the dot is the leading character. -/
def extensionOf (name : String) : Option String :=
  let cs := name.data
  if cs.contains '.' then
    let ext := (cs.reverse.takeWhile (fun c => c ≠ '.')).reverse
    let stem := cs.take (cs.length - ext.length - 1)
    if stem.isEmpty then none else some ⟨ext⟩
  else none

/-- Model of `Path::extension` of a whole path (via its file name). -/
def pathExtension (p : FsPath) : Option String :=
  match p.fileName? with
  | none => none
  | some name => extensionOf name

/-! ## `src/domain.rs` -/

/-- The error enum `NoteError` of `src/domain.rs` (`InvalidPath`,
`InvalidTitle`, `Io`); the payload of `Io` is not modelled. -/
inductive NoteError where
  | invalidPath
  | invalidTitle
  | io
deriving DecidableEq, Repr

/-- The struct `LocalNote` of `src/domain.rs`. -/
structure LocalNote where
  title : String
  content : String
  path : FsPath
deriving DecidableEq, Repr

/-- The forbidden filename characters of `sanitize_title`. -/
def forbiddenChars : List Char :=
  ['/', '\\', ':', '"', '*', '?', '<', '>', '|']

/-- Model of `sanitize_title` of `src/domain.rs`: take the first line, drop leading
`'#'` markers then leading whitespace, replace forbidden characters by `'_'`,
trim trailing whitespace; empty or missing results become `"Untitled"`. -/
def sanitize_title (content : String) : String :=
  match firstLine? content with
  | none => "Untitled"
  | some line =>
    let title :=
      ((line.dropWhile (fun c => c = '#')).dropWhile rustIsWhitespace).map
        (fun c => if forbiddenChars.contains c then '_' else c)
    let title := (title.reverse.dropWhile rustIsWhitespace).reverse
    if title.isEmpty then "Untitled" else ⟨title⟩

/-- The per-character case analysis of `slugify_title`: alphanumerics kept,
whitespace and `'-'` become `'_'`, `'_'` kept, everything else dropped
(the source maps dropped characters to `'\0'` and filters them out). -/
def slugChar (c : Char) : Option Char :=
  if rustIsAlphanumeric c then some c
  else if rustIsWhitespace c || c = '-' then some '_'
  else if c = '_' then some c
  else none

/-- Strip leading and trailing `'_'` (`str::trim_matches('_')`). -/
def trimUnderscoresList (cs : List Char) : List Char :=
  ((cs.dropWhile (fun c => c = '_')).reverse.dropWhile (fun c => c = '_')).reverse

/-- Model of `slugify_title` of `src/domain.rs`: lowercase, apply `slugChar` to every
character, then trim surrounding underscores. -/
def slugify_title (title : String) : String :=
  ⟨trimUnderscoresList ((title.data.map rustToLower).filterMap slugChar)⟩

/-- Candidate file name probed by `is_unique`: `base.md` for count 0 and
`base_N.md` afterwards. -/
def mdCandidate (base : String) (count : Nat) : String :=
  if count = 0 then base ++ ".md" else base ++ "_" ++ toString count ++ ".md"

/-- The probing loop of `is_unique`, with explicit fuel standing for the
termination argument (a finite filesystem always yields a free name within
`fs.length + 1` probes). -/
def isUniqueGo (base : String) (dir : FsPath) (fs : FS) : Nat → Nat → FsPath
  | 0, count => dir.joinName (mdCandidate base count)
  | fuel + 1, count =>
    let candidate := dir.joinName (mdCandidate base count)
    if fsExistsFile fs candidate then isUniqueGo base dir fs fuel (count + 1)
    else candidate

/-- Model of `is_unique` of `src/domain.rs`: the first free candidate path in `dir`. -/
def is_unique (base : String) (dir : FsPath) (fs : FS) : FsPath :=
  isUniqueGo base dir fs (fs.length + 1) 0

/-- Model of `LocalNote::create` of `src/domain.rs`.  The filesystem is threaded
explicitly; `fs::write` cannot fail in the model, so the `Io` branch of the
source never fires here.  Note that the source joins the directory with the
*path* returned by `is_unique` (not a bare file name), which `FsPath.join`
mirrors. -/
def LocalNote.create (title content : String) (dir : FsPath) (fs : FS) :
    Except NoteError (LocalNote × FS) :=
  let full_content :=
    if startsWithHash content then content
    else "# " ++ rustTrim title ++ "\n\n" ++ content
  let note_title := sanitize_title full_content
  let slug := slugify_title note_title
  let filename := is_unique slug dir fs
  let note_path := dir.join filename
  .ok ({ title := note_title, content := full_content, path := note_path },
       fsWrite fs note_path full_content)

/-- Model of `LocalNote::open` of `src/domain.rs` (named `openNote`, `open` being a
Lean keyword): read the file, derive the title from the content. -/
def LocalNote.openNote (path : FsPath) (fs : FS) : Except NoteError LocalNote :=
  match fsRead fs path with
  | none => .error .io
  | some content =>
    .ok { title := sanitize_title content, content := content, path := path }

/-- Model of `LocalNote::reload` of `src/domain.rs`. -/
def LocalNote.reload (note : LocalNote) (fs : FS) : Except NoteError LocalNote :=
  match fsRead fs note.path with
  | none => .error .io
  | some data =>
    .ok { title := sanitize_title data, content := data, path := note.path }

/-- Model of `write_atomic` of `src/domain.rs`, as the list of filesystem states the
operation passes through: the initial state, the state after the temp file
is created in the target's directory (`NamedTempFile::new_in`), the state
after the content is written to the temp file (`write_all`), and the state
after the temp file is renamed onto the target (`persist`).  A crash leaves
the filesystem in one of these states.  The temp file's random name is a
parameter. -/
def write_atomic (fs : FS) (path : FsPath) (tmpName : String) (data : String) :
    Except NoteError (List FS) :=
  match path.parent? with
  | none => .error .invalidPath
  | some dir =>
    let tmp := dir.joinName tmpName
    let s1 := fsWrite fs tmp ""
    let s2 := fsWrite s1 tmp data
    let s3 := fsWrite (fsErase s2 tmp) path data
    .ok [fs, s1, s2, s3]

/-- Model of `LocalNote::save` of `src/domain.rs`: `write_atomic(self.path, self.content)`,
unconditionally — the source has no no-change check before writing. -/
def LocalNote.save (note : LocalNote) (fs : FS) (tmpName : String) :
    Except NoteError (List FS) :=
  write_atomic fs note.path tmpName note.content

/-- Model of `LocalNote::delete` of `src/domain.rs`. -/
def LocalNote.deleteNote (note : LocalNote) (fs : FS) : Except NoteError FS :=
  match fsRead fs note.path with
  | none => .error .io
  | some _ => .ok (fsErase fs note.path)

/-! ## `src/watcher/debounce.rs`

`Debouncer::run` receives `(kind, path)` events; for each it cancels the
path's pending timer (if that timer has not fired yet) and arms a fresh one.
A timer armed when its event is received at time `t` fires at `t + D` unless
a later event for the same path is received strictly before `t + D`.  The
model processes a timestamped event list in arrival order; a pending timer
that was already due when the next same-path event arrives is recorded as
emitted (the cancellation signal reaches a timer that has already fired and
is ignored, as in the source).  When the input ends, timers still pending
fire: the spawned timer threads outlive the run loop and their sends are not
cancelled. -/

/-- The event kinds the watcher forwards (`notify::EventKind`, coarsely:
the service only reacts to `Create`, `Modify` and `Remove`). -/
inductive EventKind where
  | create
  | modify
  | remove
  | other
deriving DecidableEq, Repr

/-- The debouncer's `active_timers` map: per path, the arm time and the kind
held by the pending timer's closure. -/
abbrev TimerMap := List (FsPath × Nat × EventKind)

/-- Look up the pending timer for a path. -/
def timerLookup : TimerMap → FsPath → Option (Nat × EventKind)
  | [], _ => none
  | (q, t, k) :: rest, p => if q = p then some (t, k) else timerLookup rest p

/-- Replace (or insert) the pending timer for a path
(`active_timers.remove` followed by `active_timers.insert`). -/
def timerSet : TimerMap → FsPath → Nat → EventKind → TimerMap
  | [], p, t, k => [(p, t, k)]
  | (q, t0, k0) :: rest, p, t, k =>
    if q = p then (p, t, k) :: rest else (q, t0, k0) :: timerSet rest p t k

/-- State of the debouncer run loop: the pending-timer map plus the events
already emitted downstream. -/
structure DebouncerState where
  timers : TimerMap
  emitted : List (EventKind × FsPath)
deriving DecidableEq, Repr

/-- One iteration of `Debouncer::run` on event `(t, k, p)` received at time
`t`: a pending timer armed at `t0` has fired already iff `t0 + D ≤ t`
(otherwise the cancellation wins), and a fresh timer for `(t, k)` is armed. -/
def debStep (D : Nat) (st : DebouncerState) (ev : Nat × EventKind × FsPath) :
    DebouncerState :=
  match ev with
  | (t, k, p) =>
    match timerLookup st.timers p with
    | some (t0, k0) =>
      if t0 + D ≤ t then
        { timers := timerSet st.timers p t k, emitted := st.emitted ++ [(k0, p)] }
      else
        { timers := timerSet st.timers p t k, emitted := st.emitted }
    | none => { timers := timerSet st.timers p t k, emitted := st.emitted }

/-- After the input channel closes, every still-pending timer fires. -/
def debFlush (st : DebouncerState) : List (EventKind × FsPath) :=
  st.emitted ++ st.timers.map (fun e => (e.2.2, e.1))

/-- Model of `Debouncer::run` on a finite timestamped input: fold `debStep` over the
events in arrival order, then flush the pending timers. -/
def debounceRun (D : Nat) (events : List (Nat × EventKind × FsPath)) :
    List (EventKind × FsPath) :=
  debFlush (events.foldl (debStep D) ⟨[], []⟩)

/-! ## `src/error.rs` -/

/-- The error enum `OraError` of `src/error.rs`.  Note that it *does* carry a
`NoChanges` variant (documented there as "returned when attempting to save a
note that already contains the same content"), although `domain.rs` never
produces it. -/
inductive OraError where
  | noChanges
  | note (e : NoteError)
  | shelf
  | io
  | db
  | connection (msg : String)
  | other (msg : String)
  | watcher
deriving DecidableEq, Repr

/-! ## `src/watcher/index.rs`

The SQLite table keyed by the `UNIQUE` column `path` is modelled as an
association list from paths to `(title, content)`; `INSERT OR REPLACE`
becomes replace-or-insert, `DELETE ... WHERE path = ?` becomes key removal.
Database errors are not modelled, so the operations are pure. -/

/-- The struct `IndexedNote` of `src/watcher/index.rs`. -/
structure IndexedNote where
  title : String
  content : String
  path : FsPath
deriving DecidableEq, Repr

/-- The `notes` table of the index, keyed by path. -/
abbrev Idx := List (FsPath × String × String)

/-- Row lookup by path. -/
def idxLookup : Idx → FsPath → Option (String × String)
  | [], _ => none
  | (q, r) :: rest, p => if q = p then some r else idxLookup rest p

/-- Replace-or-insert a row (`INSERT OR REPLACE`). -/
def idxSet : Idx → FsPath → String × String → Idx
  | [], p, r => [(p, r)]
  | (q, r0) :: rest, p, r =>
    if q = p then (q, r) :: rest else (q, r0) :: idxSet rest p r

/-- Delete a row by key. -/
def idxErase : Idx → FsPath → Idx
  | [], _ => []
  | (q, r0) :: rest, p => if q = p then rest else (q, r0) :: idxErase rest p

/-- Model of `Index::index_note`: upsert the note's row, keyed by its path. -/
def index_note (idx : Idx) (note : LocalNote) : Idx :=
  idxSet idx note.path (note.title, note.content)

/-- Model of `Index::remove_note`: delete by the note's path, reporting whether a row
was removed (`rows_affected > 0`). -/
def remove_note (idx : Idx) (note : LocalNote) : Bool × Idx :=
  ((idxLookup idx note.path).isSome, idxErase idx note.path)

/-- Model of `Index::exists`: is there a row for this path. -/
def idxExists (idx : Idx) (p : FsPath) : Bool :=
  (idxLookup idx p).isSome

/-- Model of `Index::get_by_path`: the row for this path as an `IndexedNote`. -/
def get_by_path (idx : Idx) (p : FsPath) : Option IndexedNote :=
  match idxLookup idx p with
  | none => none
  | some (t, c) => some ⟨t, c, p⟩

/-! ## `src/watcher/handler.rs`

Each handler takes the filesystem and index states and returns the new index
together with the list of index-port calls it made.  The `Except` layer keeps
the source's `Result` signature: in the model index-port calls cannot fail,
so every handler returns `.ok` (open failures are absorbed, as in the
source). -/

/-- The index-port calls a handler can make. -/
inductive PortCall where
  | indexNote (note : LocalNote)
  | removeNote (path : FsPath)
  | existsQuery (path : FsPath)
deriving DecidableEq, Repr

/-- Model of `is_markdown_file` of `src/watcher/handler.rs`: `.md` extension and the
file name does not start with `.`; a path with no file name short-circuits
on the extension test. -/
def is_markdown_file (p : FsPath) : Bool :=
  match p.fileName? with
  | none => false
  | some name => (extensionOf name == some "md") && !(isHiddenName name)

/-- Model of `FileIndexHandler::handle_create`: filter, idempotency guard via
`exists`, then open-and-index; an open failure is logged and skipped. -/
def handle_create (fs : FS) (idx : Idx) (p : FsPath) :
    Except OraError (Idx × List PortCall) :=
  if ¬ is_markdown_file p then .ok (idx, [])
  else if idxExists idx p then .ok (idx, [.existsQuery p])
  else
    match LocalNote.openNote p fs with
    | .ok note => .ok (index_note idx note, [.existsQuery p, .indexNote note])
    | .error _ => .ok (idx, [.existsQuery p])

/-- Model of `FileIndexHandler::handle_modify`: filter, then open-and-upsert; an open
failure removes the path from the index via a placeholder note. -/
def handle_modify (fs : FS) (idx : Idx) (p : FsPath) :
    Except OraError (Idx × List PortCall) :=
  if ¬ is_markdown_file p then .ok (idx, [])
  else
    match LocalNote.openNote p fs with
    | .ok note => .ok (index_note idx note, [.indexNote note])
    | .error _ =>
      .ok ((remove_note idx ⟨"", "", p⟩).2, [.removeNote p])

/-- Model of `FileIndexHandler::handle_remove`: filter, then remove unconditionally
(this handler never touches the filesystem). -/
def handle_remove (idx : Idx) (p : FsPath) :
    Except OraError (Idx × List PortCall) :=
  if ¬ is_markdown_file p then .ok (idx, [])
  else
    .ok ((remove_note idx ⟨"", "", p⟩).2, [.removeNote p])

/-! ## Spec-side definitions and concrete scenarios -/

/-- The slug function as the specification words it, for comparison with
`slugify_title`: lowercase the title, then in one pass collapse each run of
whitespace/hyphen characters to a single `'_'`, keep alphanumerics, and
strip every other non-alphanumeric character (underscores included); finally
trim boundary underscores.  The flag records whether the previous character
already contributed the `'_'` of the current whitespace/hyphen run. -/
def specSlugGo : Bool → List Char → List Char
  | _, [] => []
  | inRun, c :: cs =>
    if rustIsWhitespace c || c = '-' then
      if inRun then specSlugGo true cs else '_' :: specSlugGo true cs
    else if rustIsAlphanumeric c then c :: specSlugGo false cs
    else specSlugGo false cs

/-- The specification's slug function (see `specSlugGo`). -/
def slugifySpec (title : String) : String :=
  ⟨trimUnderscoresList (specSlugGo false (title.data.map rustToLower))⟩

/-- The slug function as the amended claim words it: character by character
over the lowercased title — alphanumerics kept, each whitespace character or
hyphen replaced by its own `'_'` (runs are not collapsed), underscores kept,
every other character dropped — then boundary underscores trimmed. -/
def amendedSlugGo : List Char → List Char
  | [] => []
  | c :: cs =>
    if rustIsAlphanumeric c then c :: amendedSlugGo cs
    else if rustIsWhitespace c || c = '-' then '_' :: amendedSlugGo cs
    else if c = '_' then '_' :: amendedSlugGo cs
    else amendedSlugGo cs

/-- The amended claim's slug function (see `amendedSlugGo`). -/
def slugifyAmended (title : String) : String :=
  ⟨trimUnderscoresList (amendedSlugGo (title.data.map rustToLower))⟩

/-- A concrete absolute shelf directory for the evaluation scenarios. -/
def demoDir : FsPath := ⟨true, ["shelf"]⟩

/-- The collision scenario of the spec and of the repository's own test
`duplicate_titles_get_number_suffix`: three notes created with the title
`"Same Title"` in one directory, starting from an empty filesystem;
returns the three created paths. -/
def createThreeSameTitle (dir : FsPath) :
    Except NoteError (FsPath × FsPath × FsPath) := do
  let (n1, fs1) ← LocalNote.create "Same Title" "first" dir []
  let (n2, fs2) ← LocalNote.create "Same Title" "second" dir fs1
  let (n3, _) ← LocalNote.create "Same Title" "third" dir fs2
  pure (n1.path, n2.path, n3.path)

/-- The note `create "Same Title" "first" demoDir []` produces. -/
def c1Note : LocalNote :=
  { title := "Same Title", content := "# Same Title\n\nfirst",
    path := ⟨true, ["shelf", "same_title.md"]⟩ }

/-- The filesystem `create "Same Title" "first" demoDir []` produces. -/
def c1FS : FS := [(c1Note.path, c1Note.content)]

/-- A content string that starts with a Markdown heading marker. -/
def c10Content : String := "# Heading\n\nbody"

/-- A concrete note for the no-op-save scenario. -/
def c3Note : LocalNote :=
  { title := "Same", content := "# Same\n\nbody", path := ⟨true, ["shelf", "same.md"]⟩ }

/-- A filesystem already holding exactly `c3Note`'s content at its path, so
that a `save` is a pure no-change rewrite. -/
def c3FS : FS := [(c3Note.path, c3Note.content)]

/-- The temp-file path `write_atomic` uses in the no-op-save scenario. -/
def c3Tmp : FsPath := FsPath.joinName ⟨true, ["shelf"]⟩ ".tmp42"

/-- A concrete watched path for the debounce scenario. -/
def c4Path : FsPath := ⟨true, ["shelf", "d.md"]⟩

/-- A concrete markdown path for the handler scenarios. -/
def c5Path : FsPath := ⟨true, ["shelf", "w.md"]⟩

/-- A filesystem where `c5Path` holds a heading-led note. -/
def c5FSA : FS := [(c5Path, "# W\n\nbody")]

/-- The note `LocalNote::open` yields at `c5Path` over `c5FSA`. -/
def c5Note : LocalNote := { title := "W", content := "# W\n\nbody", path := c5Path }

/-- An index already holding a row for `c5Path`. -/
def c6Idx : Idx := [(c5Path, ("W", "# W\n\nbody"))]

/-- The `IndexedNote` stored for `c5Path` in `c6Idx`. -/
def c6Note : IndexedNote := { title := "W", content := "# W\n\nbody", path := c5Path }

/-- The shelf directory of the atomic-save scenario. -/
def c7Dir : FsPath := ⟨true, ["shelf"]⟩

/-- The note being saved in the atomic-save scenario. -/
def c7Note : LocalNote :=
  { title := "N", content := "new content", path := ⟨true, ["shelf", "n.md"]⟩ }

/-- A filesystem where the target still holds the old content. -/
def c7FS : FS := [(c7Note.path, "old content")]

/-- The temp-file path of the atomic-save scenario. -/
def c7Tmp : FsPath := c7Dir.joinName ".t1"

/-- The four observable filesystem states of the atomic save. -/
def c7States : List FS :=
  [c7FS,
   fsWrite c7FS c7Tmp "",
   fsWrite (fsWrite c7FS c7Tmp "") c7Tmp c7Note.content,
   fsWrite (fsErase (fsWrite (fsWrite c7FS c7Tmp "") c7Tmp c7Note.content)
     c7Tmp) c7Note.path c7Note.content]

/-- A non-markdown path for the filtering scenario. -/
def c9Path : FsPath := ⟨false, ["readme.txt"]⟩

/-! ## Helper lemmas -/

theorem fsRead_fsWrite_self (fs : FS) (p : FsPath) (v : String) :
    fsRead (fsWrite fs p v) p = some v := by
  induction fs with
  | nil => simp [fsWrite, fsRead]
  | cons e rest ih =>
    obtain ⟨q, s⟩ := e
    by_cases h : q = p
    · simp [fsWrite, fsRead, h]
    · simp [fsWrite, fsRead, h, ih]

theorem fsRead_fsWrite_ne (fs : FS) (p q : FsPath) (v : String) (h : q ≠ p) :
    fsRead (fsWrite fs p v) q = fsRead fs q := by
  have h' : ¬ (p = q) := fun hh => h hh.symm
  induction fs with
  | nil => simp [fsWrite, fsRead, h']
  | cons e rest ih =>
    obtain ⟨r, s⟩ := e
    by_cases hr : r = p
    · subst hr
      simp [fsWrite, fsRead, h']
    · simp [fsWrite, fsRead, hr, ih]

theorem fsRead_fsErase_ne (fs : FS) (p q : FsPath) (h : q ≠ p) :
    fsRead (fsErase fs p) q = fsRead fs q := by
  have h' : ¬ (p = q) := fun hh => h hh.symm
  induction fs with
  | nil => simp [fsErase]
  | cons e rest ih =>
    obtain ⟨r, s⟩ := e
    by_cases hr : r = p
    · subst hr
      simp [fsErase, fsRead, h']
    · simp [fsErase, fsRead, hr, ih]

/-- The source's map-to-sentinel-then-filter pipeline agrees with the amended
claim's direct per-character recursion. -/
theorem filterMap_slugChar_eq_amended (cs : List Char) :
    cs.filterMap slugChar = amendedSlugGo cs := by
  induction cs with
  | nil => simp [amendedSlugGo]
  | cons c rest ih =>
    by_cases h1 : rustIsAlphanumeric c = true
    · simp [List.filterMap_cons, slugChar, amendedSlugGo, h1, ih]
    · by_cases h2 : (rustIsWhitespace c || c = '-') = true
      · simp [List.filterMap_cons, slugChar, amendedSlugGo, h1, h2, ih]
      · by_cases h3 : c = '_'
        · simp [List.filterMap_cons, slugChar, amendedSlugGo, h1, h2, h3, ih]
        · simp [List.filterMap_cons, slugChar, amendedSlugGo, h1, h2, h3, ih]

/-- Single-path debouncer invariant: starting with exactly one armed timer
for `p` and nothing emitted, if every successive event for `p` arrives
strictly within `D` of the previous one, each step cancels the pending timer
and re-arms it, so nothing is ever emitted and the last event's timer is the
one left pending. -/
theorem debounce_fold_single (D : Nat) (p : FsPath) :
    ∀ (evs : List (Nat × EventKind)) (t0 : Nat) (k0 : EventKind),
      List.Chain' (fun a b => a.1 ≤ b.1 ∧ b.1 < a.1 + D) ((t0, k0) :: evs) →
      (evs.map (fun e => (e.1, e.2, p))).foldl (debStep D)
          ⟨[(p, t0, k0)], []⟩ =
        ⟨[(p, (evs.getLastD (t0, k0)).1, (evs.getLastD (t0, k0)).2)], []⟩ := by
  intro evs
  induction evs with
  | nil => intro t0 k0 _; simp
  | cons e rest ih =>
    intro t0 k0 hchain
    obtain ⟨t1, k1⟩ := e
    rw [List.chain'_cons] at hchain
    obtain ⟨⟨hle, hlt⟩, hchain'⟩ := hchain
    have hstep : debStep D ⟨[(p, t0, k0)], []⟩ (t1, k1, p) =
        ⟨[(p, t1, k1)], []⟩ := by
      simp [debStep, timerLookup, timerSet, Nat.not_le.mpr hlt]
    simp only [List.map_cons, List.foldl_cons, hstep, List.getLastD_cons]
    exact ih t1 k1 hchain'

/-- Joining a directory with a file name puts the result directly inside
that directory. -/
theorem parent_joinName (p : FsPath) (name : String) :
    (p.joinName name).parent? = some ⟨p.absolute, p.comps⟩ := by
  simp [FsPath.joinName, FsPath.parent?]

/-! ## Claim theorems -/

/-- C1: if `create(title, content, dir)` succeeds with a note, then `open`
on that note's path succeeds and yields a note whose content is identical to
the created note's content and whose title is `sanitize_title` — the
deterministic title-derivation function — applied to that content. -/
theorem create_open_roundtrip (title content : String) (dir : FsPath) (fs : FS)
    (note : LocalNote) (fs' : FS)
    (h : LocalNote.create title content dir fs = .ok (note, fs')) :
    LocalNote.openNote note.path fs' =
      .ok { title := sanitize_title note.content, content := note.content,
            path := note.path } := by
  unfold LocalNote.create at h
  simp only [Except.ok.injEq, Prod.mk.injEq] at h
  obtain ⟨hn, hfs⟩ := h
  subst hfs
  subst hn
  simp [LocalNote.openNote, fsRead_fsWrite_self]

/-- C1 witness: the round trip at title `"Same Title"`, content `"first"`,
an absolute shelf directory and the empty filesystem. -/
theorem create_open_roundtrip_witness :
    LocalNote.create "Same Title" "first" demoDir [] = .ok (c1Note, c1FS) ∧
    LocalNote.openNote c1Note.path c1FS =
      .ok { title := sanitize_title c1Note.content, content := c1Note.content,
            path := c1Note.path } :=
  ⟨rfl, create_open_roundtrip "Same Title" "first" demoDir [] c1Note c1FS rfl⟩

/-- C2 evaluated at its own input: creating three notes titled
`"Same Title"` in one directory yields paths ending in `same_title.md`,
`same_title_1.md`, `same_title_2.md` — the code slugifies the title and
separates the numeric suffix with `_`, whereas the claim (and the
repository's own test `duplicate_titles_get_number_suffix`) demands
`Same Title.md`, `Same Title 1.md`, `Same Title 2.md`. -/
theorem createThreeSameTitle_slugged :
    createThreeSameTitle demoDir =
      .ok (⟨true, ["shelf", "same_title.md"]⟩,
           ⟨true, ["shelf", "same_title_1.md"]⟩,
           ⟨true, ["shelf", "same_title_2.md"]⟩) ∧
    FsPath.fileName? ⟨true, ["shelf", "same_title_1.md"]⟩ ≠
      some "Same Title 1.md" :=
  ⟨rfl, by decide⟩

/-- C3 evaluated: with the note's exact content already on disk at its path,
`save` does not signal any no-change condition — `NoteError` has no
`NoChanges` variant at all (its constructors are exactly `InvalidPath`,
`InvalidTitle`, `Io`) — and the save performs the full temp-file write and
rename again, returning success.  (`src/error.rs` documents and matches a
`NoteError::NoChanges` variant, which `src/domain.rs` does not define.) -/
theorem save_unchanged_no_nochanges :
    fsRead c3FS c3Note.path = some c3Note.content ∧
    LocalNote.save c3Note c3FS ".tmp42" =
      .ok [c3FS,
           fsWrite c3FS c3Tmp "",
           fsWrite (fsWrite c3FS c3Tmp "") c3Tmp c3Note.content,
           fsWrite (fsErase (fsWrite (fsWrite c3FS c3Tmp "") c3Tmp
             c3Note.content) c3Tmp) c3Note.path c3Note.content] ∧
    fsWrite c3FS c3Tmp "" ≠ c3FS ∧
    (∀ e : NoteError, e = .invalidPath ∨ e = .invalidTitle ∨ e = .io) := by
  refine ⟨rfl, rfl, by decide, ?_⟩
  intro e
  cases e
  · exact Or.inl rfl
  · exact Or.inr (Or.inl rfl)
  · exact Or.inr (Or.inr rfl)

/-- C10: when the content starts with `'#'`, `create` ignores the title
argument entirely — two calls differing only in the title return the same
note and filesystem — and the resulting title is derived solely from the
content (its first heading line) via `sanitize_title`. -/
theorem create_title_independent (t1 t2 content : String) (dir : FsPath)
    (fs : FS) (h : startsWithHash content = true) :
    LocalNote.create t1 content dir fs = LocalNote.create t2 content dir fs ∧
    Except.map (fun r => r.1.title) (LocalNote.create t1 content dir fs) =
      .ok (sanitize_title content) := by
  constructor
  · simp [LocalNote.create, h]
  · simp [LocalNote.create, h, Except.map]

/-- C10 witness: two creates with titles `"Alpha"` and `"Beta"` over the
heading-led content `"# Heading\n\nbody"` coincide. -/
theorem create_title_independent_witness :
    startsWithHash c10Content = true ∧
    (LocalNote.create "Alpha" c10Content demoDir [] =
        LocalNote.create "Beta" c10Content demoDir [] ∧
     Except.map (fun r => r.1.title)
        (LocalNote.create "Alpha" c10Content demoDir []) =
       .ok (sanitize_title c10Content)) :=
  ⟨rfl, create_title_independent "Alpha" "Beta" c10Content demoDir [] rfl⟩

/-- C4: for a non-empty sequence of events for one path, each arriving
strictly within the debounce duration of the previous one, the debouncer
emits exactly one downstream event for that path, carrying the kind of the
last event sent; the earlier events are discarded. -/
theorem debounce_coalesces (D : Nat) (p : FsPath)
    (evs : List (Nat × EventKind)) (hne : evs ≠ [])
    (hrapid : List.Chain' (fun a b => a.1 ≤ b.1 ∧ b.1 < a.1 + D) evs) :
    debounceRun D (evs.map (fun e => (e.1, e.2, p))) =
      [((evs.getLast hne).2, p)] := by
  obtain ⟨⟨t0, k0⟩, rest, rfl⟩ := List.exists_cons_of_ne_nil hne
  unfold debounceRun
  rw [List.map_cons, List.foldl_cons]
  have hstep : debStep D ⟨[], []⟩
      ((fun e : Nat × EventKind => (e.1, e.2, p)) (t0, k0)) =
      ⟨[(p, t0, k0)], []⟩ := by
    simp [debStep, timerLookup, timerSet]
  rw [hstep, debounce_fold_single D p rest t0 k0 hrapid]
  simp [debFlush, List.getLast_eq_getLastD]

/-- C4 witness: three rapid events (times 0, 3, 6; debounce 10) for one path
collapse to a single `Modify` emission. -/
theorem debounce_coalesces_witness :
    (([(0, EventKind.create), (3, EventKind.modify), (6, EventKind.modify)] :
        List (Nat × EventKind)) ≠ []) ∧
    List.Chain' (fun a b => a.1 ≤ b.1 ∧ b.1 < a.1 + 10)
      [(0, EventKind.create), (3, EventKind.modify), (6, EventKind.modify)] ∧
    debounceRun 10
      [(0, EventKind.create, c4Path), (3, EventKind.modify, c4Path),
       (6, EventKind.modify, c4Path)] = [(EventKind.modify, c4Path)] := by
  have hch : List.Chain' (fun a b => a.1 ≤ b.1 ∧ b.1 < a.1 + 10)
      [((0 : Nat), EventKind.create), (3, EventKind.modify),
       (6, EventKind.modify)] := by
    refine List.chain'_cons.mpr ⟨⟨by decide, by decide⟩, ?_⟩
    refine List.chain'_cons.mpr ⟨⟨by decide, by decide⟩, ?_⟩
    exact List.chain'_singleton _
  exact ⟨by decide, hch,
    debounce_coalesces 10 c4Path
      [(0, EventKind.create), (3, EventKind.modify), (6, EventKind.modify)]
      (by decide) hch⟩

/-- C5: for a markdown, non-hidden path, `handle_modify` attempts to open
the file; on success it indexes the note through the same `index_note`
upsert that `handle_create` uses, and on failure it removes the path from
the index and still returns success. -/
theorem modify_upsert_or_heal (fsA fsB : FS) (idx : Idx) (p : FsPath)
    (note : LocalNote) (e : NoteError)
    (hmd : is_markdown_file p = true)
    (hnew : idxExists idx p = false)
    (hopen : LocalNote.openNote p fsA = .ok note)
    (hfail : LocalNote.openNote p fsB = .error e) :
    handle_modify fsA idx p =
      .ok (index_note idx note, [.indexNote note]) ∧
    handle_modify fsB idx p =
      .ok ((remove_note idx ⟨"", "", p⟩).2, [.removeNote p]) ∧
    handle_create fsA idx p =
      .ok (index_note idx note, [.existsQuery p, .indexNote note]) := by
  refine ⟨?_, ?_, ?_⟩
  · simp [handle_modify, hmd, hopen]
  · simp [handle_modify, hmd, hfail]
  · simp [handle_create, hmd, hnew, hopen]

/-- C5 witness: over a filesystem holding the note, `handle_modify` upserts;
over an empty filesystem the open fails and the path is removed instead. -/
theorem modify_upsert_or_heal_witness :
    is_markdown_file c5Path = true ∧
    idxExists [] c5Path = false ∧
    LocalNote.openNote c5Path c5FSA = .ok c5Note ∧
    LocalNote.openNote c5Path [] = .error NoteError.io ∧
    (handle_modify c5FSA [] c5Path =
        .ok (index_note [] c5Note, [.indexNote c5Note]) ∧
     handle_modify [] [] c5Path =
        .ok ((remove_note [] ⟨"", "", c5Path⟩).2, [.removeNote c5Path]) ∧
     handle_create c5FSA [] c5Path =
        .ok (index_note [] c5Note, [.existsQuery c5Path, .indexNote c5Note])) :=
  ⟨rfl, rfl, rfl, rfl,
   modify_upsert_or_heal c5FSA [] [] c5Path c5Note NoteError.io
     rfl rfl rfl rfl⟩

/-- C6: for a markdown, non-hidden path already present in the index, a
Create event only queries `exists` — it makes no `index_note` call, leaves
the index unchanged, and `get_by_path` afterwards still returns exactly the
one note it returned before. -/
theorem create_duplicate_noop (fs : FS) (idx : Idx) (p : FsPath)
    (n : IndexedNote)
    (hmd : is_markdown_file p = true)
    (hex : idxExists idx p = true)
    (hget : get_by_path idx p = some n) :
    handle_create fs idx p = .ok (idx, [.existsQuery p]) ∧
    get_by_path idx p = some n := by
  refine ⟨?_, hget⟩
  simp [handle_create, hmd, hex]

/-- C6 witness: a duplicate Create for the already-indexed `c5Path` leaves
the one-row index as it is. -/
theorem create_duplicate_noop_witness :
    is_markdown_file c5Path = true ∧
    idxExists c6Idx c5Path = true ∧
    get_by_path c6Idx c5Path = some c6Note ∧
    (handle_create [] c6Idx c5Path = .ok (c6Idx, [.existsQuery c5Path]) ∧
     get_by_path c6Idx c5Path = some c6Note) :=
  ⟨rfl, rfl, rfl, create_duplicate_noop [] c6Idx c5Path c6Note rfl rfl rfl⟩

/-- C7: `save` goes through the `write_atomic` state sequence — initial,
temp file created in the target's own directory, temp file filled, temp file
renamed onto the target — and in every one of these observable states the
target path holds either fully the old value or fully the new value, ending
on the new value. -/
theorem save_atomic_old_or_new (note : LocalNote) (fs : FS)
    (tmpName : String) (dir : FsPath) (states : List FS)
    (hdir : note.path.parent? = some dir)
    (htmp : dir.joinName tmpName ≠ note.path)
    (h : LocalNote.save note fs tmpName = .ok states) :
    states.map (fun s => fsRead s note.path) =
      [fsRead fs note.path, fsRead fs note.path, fsRead fs note.path,
       some note.content] ∧
    (dir.joinName tmpName).parent? = note.path.parent? := by
  unfold LocalNote.save write_atomic at h
  rw [hdir] at h
  simp only [Except.ok.injEq] at h
  subst h
  have hne : note.path ≠ dir.joinName tmpName := Ne.symm htmp
  constructor
  · simp [fsRead_fsWrite_self, fsRead_fsWrite_ne _ _ _ _ hne]
  · rw [parent_joinName, hdir]

/-- C7 witness: saving `"new content"` over `"old content"` passes through
four states whose reads at the target are old, old, old, new. -/
theorem save_atomic_old_or_new_witness :
    c7Note.path.parent? = some c7Dir ∧
    c7Dir.joinName ".t1" ≠ c7Note.path ∧
    LocalNote.save c7Note c7FS ".t1" = .ok c7States ∧
    (c7States.map (fun s => fsRead s c7Note.path) =
       [fsRead c7FS c7Note.path, fsRead c7FS c7Note.path,
        fsRead c7FS c7Note.path, some c7Note.content] ∧
     (c7Dir.joinName ".t1").parent? = c7Note.path.parent?) :=
  ⟨rfl, by decide, rfl,
   save_atomic_old_or_new c7Note c7FS ".t1" c7Dir c7States
     rfl (by decide) rfl⟩

/-- C8 counterexample: the claim's characterization (collapse whitespace and
hyphens to `_`, strip all other non-alphanumerics) disagrees with the code:
the code keeps input underscores (which are non-alphanumeric) and maps each
whitespace character to its own `_` instead of collapsing runs. -/
theorem slugify_spec_counterexample :
    slugify_title "a_b" = "a_b" ∧ slugifySpec "a_b" = "ab" ∧
    slugify_title "a  b" = "a__b" ∧ slugifySpec "a  b" = "a_b" ∧
    slugify_title "a_b" ≠ slugifySpec "a_b" :=
  ⟨rfl, rfl, rfl, rfl, by decide⟩

/-- C8 amended: the slug is a deterministic function of the title alone,
computed character by character over the lowercased title — alphanumerics
kept, each whitespace character or hyphen replaced by its own `_` (runs are
not collapsed), underscores kept, every other character dropped — and then
boundary underscores are trimmed; `"Meeting Notes!"` maps to
`"meeting_notes"`. -/
theorem slugify_characterization :
    (∀ title : String, slugify_title title = slugifyAmended title) ∧
    slugify_title "Meeting Notes!" = "meeting_notes" := by
  refine ⟨?_, rfl⟩
  intro title
  unfold slugify_title slugifyAmended
  rw [filterMap_slugChar_eq_amended]

/-- C9: a path without the `.md` extension, or whose file name starts with
`.`, is a no-op for all three handlers: each returns success, makes no
index-port call, and leaves the index unchanged. -/
theorem non_markdown_noop (fs : FS) (idx : Idx) (p : FsPath)
    (h : pathExtension p ≠ some "md" ∨
         p.fileName?.map isHiddenName = some true) :
    handle_create fs idx p = .ok (idx, []) ∧
    handle_modify fs idx p = .ok (idx, []) ∧
    handle_remove idx p = .ok (idx, []) := by
  have hmd : is_markdown_file p = false := by
    cases hf : p.fileName? with
    | none => simp [is_markdown_file, hf]
    | some name =>
      rcases h with h | h
      · have hext : pathExtension p = extensionOf name := by
          simp [pathExtension, hf]
        rw [hext] at h
        have hb : (extensionOf name == some "md") = false :=
          beq_eq_false_iff_ne.mpr h
        simp [is_markdown_file, hf, hb]
      · rw [hf] at h
        have hh : isHiddenName name = true := by simpa using h
        simp [is_markdown_file, hf, hh]
  exact ⟨by simp [handle_create, hmd], by simp [handle_modify, hmd],
         by simp [handle_remove, hmd]⟩

/-- C9 witness: a `.txt` path is ignored by all three handlers. -/
theorem non_markdown_noop_witness :
    (pathExtension c9Path ≠ some "md" ∨
        c9Path.fileName?.map isHiddenName = some true) ∧
    (handle_create [] [] c9Path = .ok ([], []) ∧
     handle_modify [] [] c9Path = .ok ([], []) ∧
     handle_remove [] c9Path = .ok ([], [])) :=
  ⟨Or.inl (by decide),
   non_markdown_noop [] [] c9Path (Or.inl (by decide))⟩

end Ora
